import Mathlib

/-!
Verification of the reconciliation-controller core of `imjasonh/client-go2`
(`controller` package: `errors.go`, `controller.go`, `owner_references.go`).

The embedding is a shallow translation of the Go source.  Go error values that
can occur in this package are represented by the inductive type `GoErr`; the
standard-library algorithms `errors.Is` and `errors.As` (Go 1.13+ semantics)
are translated faithfully, including two low-level points the source depends
on:

* `errors.Is(err, target)` walks `err`'s unwrap chain and, at each element
  `e`, first compares `e == target` (interface equality, i.e. pointer
  identity for the pointer sentinels used here) and then calls `e.Is(target)`
  when `e` has an `Is` method.  The classifiers in `errors.go` always pass a
  *freshly allocated* target (`&requeueAfter{}`, `&requeueImmediately{}`,
  `&permanentError{}`).  A fresh allocation is pointer-equal to an existing
  value only when the type has size zero: the Go (gc) runtime returns the
  single `zerobase` address for every zero-size allocation.  Of the three
  sentinel structs only `requeueImmediately` is zero-size, so the pointer
  comparison with a fresh target succeeds exactly for
  `*requeueImmediately`-vs-`*requeueImmediately`.  This is encoded in the
  fresh-target pointer-equality cases of `goIs` below.
* Of the sentinel types only `permanentError` declares an `Is` method, and
  its body is `errors.Is(target, &permanentError{})`, which re-enters
  `errors.Is` with a target that again has an `Is` method.  That mutual
  recursion need not terminate, so `goIs` carries explicit fuel and returns
  `none` when the fuel runs out; divergence of the Go code at an input is the
  statement that `goIs` returns `none` for every fuel.

`fmt.Errorf("...: %w", e)` wrappers (used by `processItem` and available to
callers for arbitrary wrapping) are the `wrapf` constructor: no `Is` method,
`Unwrap` returns the wrapped error.  Plain `errors.New` errors are
`ordinary`.  A Go `error` variable that may be `nil` is `Option GoErr`.
-/

set_option autoImplicit false

namespace ClientGo2

/-- Go error values reachable in the `controller` package: the three sentinel
types of `errors.go`, plain (`errors.New`-style) errors, and
`fmt.Errorf`-with-`%w` wrappers.  `permanentError`'s field `err error` may be
nil (the freshly allocated target `&permanentError{}` has a nil field), hence
`Option GoErr`. -/
inductive GoErr : Type where
  | requeueAfter (d : Int)
  | requeueImmediately
  | permanentError (e : Option GoErr)
  | ordinary (msg : String)
  | wrapf (msg : String) (e : GoErr)

/-- The three freshly allocated sentinel targets the classifiers pass to
`errors.Is`: `&requeueAfter{}`, `&requeueImmediately{}`, `&permanentError{}`. -/
inductive Target : Type where
  | tRequeueAfter
  | tRequeueImmediately
  | tPermanentError
deriving DecidableEq, Repr

/-- The error value held by a freshly allocated target (all fields zero). -/
def targetVal : Target → GoErr
  | .tRequeueAfter => .requeueAfter 0
  | .tRequeueImmediately => .requeueImmediately
  | .tPermanentError => .permanentError none

/-- One run of the loop body of Go `errors.Is(e, target)` where `target` is a
freshly allocated sentinel, with fuel spent on every step.  Per chain element:
(1) pointer comparison with the fresh target — true only for the zero-size
`requeueImmediately` against a fresh `&requeueImmediately{}` (runtime
`zerobase`); (2) the element's `Is` method if it has one — only
`permanentError` does, and its body `errors.Is(target, &permanentError{})`
re-enters the algorithm on the target's value; (3) `Unwrap`, continuing the
loop, or termination with `false` when the element has no `Unwrap` method or
unwraps to nil. -/
def goIs : Nat → GoErr → Target → Option Bool
  | 0, _, _ => none
  | _ + 1, .requeueImmediately, .tRequeueImmediately => some true
  | _ + 1, .requeueImmediately, _ => some false
  | _ + 1, .requeueAfter _, _ => some false
  | _ + 1, .ordinary _, _ => some false
  | fuel + 1, .wrapf _ e, t => goIs fuel e t
  | fuel + 1, .permanentError ee, t =>
    match goIs fuel (targetVal t) .tPermanentError with
    | none => none
    | some true => some true
    | some false =>
      match ee with
      | none => some false
      | some e => goIs fuel e t

/-- Go `errors.Is(err, target)` for a possibly-nil `err` and a freshly
allocated non-nil sentinel target: `errors.Is(nil, target)` is `false`. -/
def goErrorsIs (fuel : Nat) (err : Option GoErr) (t : Target) : Option Bool :=
  match err with
  | none => some false
  | some e => goIs fuel e t

/-- `RequeueAfter(d)` returns `&requeueAfter{duration: d}`. -/
def RequeueAfter (d : Int) : Option GoErr :=
  some (.requeueAfter d)

/-- `RequeueImmediately()` returns `&requeueImmediately{}`. -/
def RequeueImmediately : Option GoErr :=
  some .requeueImmediately

/-- `PermanentError(err)`: nil in, nil out; otherwise wraps in
`&permanentError{err: err}`. -/
def PermanentError : Option GoErr → Option GoErr
  | none => none
  | some e => some (.permanentError (some e))

/-- `IsPermanentError(err) = errors.Is(err, &permanentError{})`. -/
def IsPermanentError (fuel : Nat) (err : Option GoErr) : Option Bool :=
  goErrorsIs fuel err .tPermanentError

/-- `IsRequeueError(err) = errors.Is(err, &requeueAfter{}) ||
errors.Is(err, &requeueImmediately{})`, with Go's short-circuit `||`. -/
def IsRequeueError (fuel : Nat) (err : Option GoErr) : Option Bool :=
  match goErrorsIs fuel err .tRequeueAfter with
  | none => none
  | some true => some true
  | some false => goErrorsIs fuel err .tRequeueImmediately

/-- The chain walk of Go `errors.As(err, &ra)` with `ra : *requeueAfter`:
match by dynamic type (none of the types here has an `As` method), following
`Unwrap`.  Total, so no fuel. -/
def getRequeueDurationE : GoErr → Int
  | .requeueAfter d => d
  | .permanentError (some e) => getRequeueDurationE e
  | .permanentError none => 0
  | .wrapf _ e => getRequeueDurationE e
  | .requeueImmediately => 0
  | .ordinary _ => 0

/-- `GetRequeueDuration(err)`: the duration of the first `*requeueAfter` in
the chain found by `errors.As`, else 0. -/
def GetRequeueDuration : Option GoErr → Int
  | none => 0
  | some e => getRequeueDurationE e

/-!
Work-queue routing: `controller.go`'s `handleProcessError` and
`processNextItem`.  The calls the code issues against the work queue are
recorded as a trace of `QueueOp`s; `none` means the call diverges (the Go
process dies of stack overflow inside a classifier, so no further queue call,
including the deferred `Done`, is observed).
-/

/-- A call on the work queue issued while completing one dequeued key. -/
inductive QueueOp : Type where
  | forget (key : String)
  | addRateLimited (key : String)
  | addAfter (key : String) (d : Int)
  | done (key : String)
deriving DecidableEq, Repr

/-- The hard-coded retry ceiling in `handleProcessError`
(`c.queue.NumRequeues(key) < 10`). -/
def maxRetries : Nat := 10

/-- `handleProcessError(ctx, key, err)` for a non-nil `err`, given
`numRequeues = c.queue.NumRequeues(key)`: check `IsPermanentError`, then
`errors.Is(err, &requeueImmediately{})`, then `GetRequeueDuration(err) > 0`,
then the rate-limited/forget default by the retry ceiling. -/
def handleProcessError (fuel : Nat) (numRequeues : Nat) (key : String)
    (err : GoErr) : Option (List QueueOp) :=
  match IsPermanentError fuel (some err) with
  | none => none
  | some true => some [.forget key]
  | some false =>
    match goErrorsIs fuel (some err) .tRequeueImmediately with
    | none => none
    | some true => some [.addRateLimited key]
    | some false =>
      if 0 < getRequeueDurationE err then
        some [.addAfter key (getRequeueDurationE err)]
      else if numRequeues < maxRetries then
        some [.addRateLimited key]
      else
        some [.forget key]

/-- The queue calls of one `processNextItem` iteration after `Get` returned
`key`, given the error result `perr` of `processItem`: `Done(key)` is
deferred, so it runs after `handleProcessError` (error case) or after the
`Forget(key)` of the success case. -/
def processNextItem (fuel : Nat) (numRequeues : Nat) (key : String)
    (perr : Option GoErr) : Option (List QueueOp) :=
  match perr with
  | none => some [.forget key, .done key]
  | some e =>
    (handleProcessError fuel numRequeues key e).map (fun ops => ops ++ [.done key])

/-!
The object model, differ and conflict-safe persister:
`processItem`, `updateIfNeeded`, `updateMetadataWithRetry`,
`updateStatusWithRetry`, `copyStatus` of `controller.go`.

A resource is a record with metadata (namespace, name, labels, annotations,
finalizers), a spec zone and a status zone; spec and status are type
parameters compared by decidable equality (Go compares them with
`reflect.DeepEqual` on the reflected `Spec`/`Status` fields).  Go maps
(`map[string]string`) are association lists looked up by first match; a nil
map and an empty map both have no entries, and the code's nil-guards
(`if currMeta.Annotations != nil`, `make` on a nil destination) change
nothing at the lookup level, so nil is modelled as the empty list.

The persister is modelled in its conflict-free execution: `RetryOnConflict`
runs its closure, the closure's `Get` returns the current remote object, and
the closure's `Update`/`UpdateStatus` succeeds, so the loop runs exactly
once.  The remote store holds the single object being reconciled.
-/

/-- First-match lookup in an association list, i.e. Go `m[k]` for the maps here. -/
def mlookup (k : String) : List (String × String) → Option String
  | [] => none
  | (k1, v1) :: rest => if k1 = k then some v1 else mlookup k rest

/-- Go map assignment `m[k] = v`: overwrite the entry holding the key if one
is present, otherwise add the pair. -/
def mapSet : List (String × String) → String → String → List (String × String)
  | [], k, v => [(k, v)]
  | (k1, v1) :: rest, k, v =>
    if k1 = k then (k1, v) :: rest else (k1, v1) :: mapSet rest k v

/-- `for k, v := range cur { latest[k] = v }`: fold Go map assignment of every
entry of `cur` into `latest`. -/
def mergeInto (latest cur : List (String × String)) : List (String × String) :=
  cur.foldl (fun acc p => mapSet acc p.1 p.2) latest

/-- A resource object: metadata zone (identity, labels, annotations,
finalizers), spec zone, status zone. -/
structure KObject (σ τ : Type) where
  ns : String
  name : String
  labels : List (String × String)
  annotations : List (String × String)
  finalizers : List String
  spec : σ
  status : τ
deriving Repr

/-- The body of `updateMetadataWithRetry`'s retry closure applied to the
freshly fetched `latest` and the local `curr`: finalizers are copied
wholesale, annotations and labels are merged entry by entry with Go map
assignment (a nil local map merges nothing; `make` on a nil destination map
adds no entries). -/
def applyMetadata {σ τ : Type} (latest curr : KObject σ τ) : KObject σ τ :=
  { latest with
    finalizers := curr.finalizers
    annotations := mergeInto latest.annotations curr.annotations
    labels := mergeInto latest.labels curr.labels }

/-- A write issued against the remote store. -/
inductive WriteOp (σ τ : Type) : Type where
  | update (o : KObject σ τ)
  | updateStatus (o : KObject σ τ)

/-- `updateMetadataWithRetry(ctx, original, current)` in the conflict-free
execution: fetch the latest remote copy, overlay the local metadata, `Update`.
Returns the new remote object and the write trace. -/
def updateMetadataWithRetry {σ τ : Type} (store curr : KObject σ τ) :
    KObject σ τ × List (WriteOp σ τ) :=
  let latest := applyMetadata store curr
  (latest, [.update latest])

/-- `updateStatusWithRetry(ctx, original, current)` in the conflict-free
execution: fetch the latest remote copy, `copyStatus` the local status onto
it, `UpdateStatus` (a status-subresource write). -/
def updateStatusWithRetry {σ τ : Type} (store curr : KObject σ τ) :
    KObject σ τ × List (WriteOp σ τ) :=
  let latest := { store with status := curr.status }
  (latest, [.updateStatus latest])

/-- Log events relevant to the verified properties: the warning
`"spec changes ignored in Reconcile"`. -/
inductive LogEvent : Type where
  | warnSpecChanged
deriving DecidableEq, Repr

/-- The result of one reconciliation attempt: the remote store afterwards,
the error returned, warnings logged, and the writes issued. -/
structure ReconcileResult (σ τ : Type) where
  store : KObject σ τ
  err : Option GoErr
  log : List LogEvent
  writes : List (WriteOp σ τ)

/-- `updateIfNeeded(ctx, original, current)`: diff the pre-reconciliation
snapshot against the mutated object along the spec, status and metadata
zones; warn (only) on a spec change; persist metadata and then status for
the zones that changed. -/
def updateIfNeeded {σ τ : Type} [DecidableEq σ] [DecidableEq τ]
    (store original curr : KObject σ τ) : ReconcileResult σ τ :=
  let specChanged := original.spec ≠ curr.spec
  let statusChanged := original.status ≠ curr.status
  let finalizersChanged := original.finalizers ≠ curr.finalizers
  let annotationsChanged := original.annotations ≠ curr.annotations
  let labelsChanged := original.labels ≠ curr.labels
  let log := if specChanged then [LogEvent.warnSpecChanged] else []
  let metadataChanged := finalizersChanged ∨ annotationsChanged ∨ labelsChanged
  let s1 := if metadataChanged then updateMetadataWithRetry store curr else (store, [])
  let s2 := if statusChanged then updateStatusWithRetry s1.1 curr else (s1.1, [])
  { store := s2.1, err := none, log := log, writes := s1.2 ++ s2.2 }

/-- `processItem(ctx, key)` with the fetch succeeding on the remote object
`store`: deep-copy the snapshot, run the reconciler (modelled as a function
from the object to the mutated object and a returned error), and either
return the reconciler's error with no persistence, or run
`updateIfNeeded`. -/
def processItem {σ τ : Type} [DecidableEq σ] [DecidableEq τ]
    (store : KObject σ τ) (reconcile : KObject σ τ → KObject σ τ × Option GoErr) :
    ReconcileResult σ τ :=
  let original := store
  let r := reconcile store
  match r.2 with
  | some e => { store := store, err := some e, log := [], writes := [] }
  | none => updateIfNeeded store original r.1

/-!
Owner references: `owner_references.go`'s `EnqueueRequestForOwner`,
`SetOwnerReference`, `RemoveOwnerReference`.
-/

/-- `schema.GroupVersionKind`. -/
structure GroupVersionKind : Type where
  group : String
  version : String
  kind : String
deriving DecidableEq, Repr

/-- `GroupVersion.String()`: `"group/version"`, or just `"version"` when the
group is empty (the legacy core group). -/
def gvString (gvk : GroupVersionKind) : String :=
  if gvk.group = "" then gvk.version else gvk.group ++ "/" ++ gvk.version

/-- `metav1.OwnerReference`: the fields this package reads and writes.
`controller` is `*bool` in Go, hence `Option Bool`. -/
structure OwnerReference : Type where
  apiVersion : String
  kind : String
  name : String
  uid : String
  controller : Option Bool
deriving DecidableEq, Repr

/-- Whether the reference's controller flag is set and true
(`ref.Controller != nil && *ref.Controller`). -/
def ctrlTrue (ref : OwnerReference) : Bool :=
  ref.controller.getD false

/-- The loop body of the function returned by
`EnqueueRequestForOwner(ownerType, isController)`: scan the owner-reference
list; on an API-version/kind match, skip the entry if `isController` is set
and the entry's controller flag is not true, otherwise append
`namespace + "/" + ref.Name`. -/
def enqueueLoop (ns : String) (ownerType : GroupVersionKind)
    (isController : Bool) : List OwnerReference → List String
  | [] => []
  | ref :: rest =>
    if ref.apiVersion = gvString ownerType ∧ ref.kind = ownerType.kind then
      if isController ∧ ctrlTrue ref = false then
        enqueueLoop ns ownerType isController rest
      else
        (ns ++ "/" ++ ref.name) :: enqueueLoop ns ownerType isController rest
    else
      enqueueLoop ns ownerType isController rest

/-- The function returned by `EnqueueRequestForOwner(ownerType, isController)`
applied to a subordinate object. -/
def EnqueueRequestForOwner {σ τ : Type} (ownerType : GroupVersionKind)
    (isController : Bool) (obj : KObject σ τ)
    (refs : List OwnerReference) : List String :=
  enqueueLoop obj.ns ownerType isController refs

/-- Spec-side predicate: the reference matches the owner type (API identity
and kind), additionally having the controller flag when `isController`. -/
def matchesOwner (ownerType : GroupVersionKind) (isController : Bool)
    (ref : OwnerReference) : Bool :=
  decide (ref.apiVersion = gvString ownerType) && decide (ref.kind = ownerType.kind)
    && (!isController || ctrlTrue ref)

/-- The loop of `SetOwnerReference`: replace the first existing reference
with the owner's UID, or append the new reference. -/
def setRefs : List OwnerReference → OwnerReference → List OwnerReference
  | [], oref => [oref]
  | ref :: rest, oref =>
    if ref.uid = oref.uid then oref :: rest else ref :: setRefs rest oref

/-- `SetOwnerReference(owned, owner, scheme, controller)` acting on the owned
object's reference list: `GetOwnerReference` builds the reference with the
controller pointer unset; when `controller` is true it is pointed at `true`;
then the first reference with the owner's UID is replaced, or the reference
is appended. -/
def SetOwnerReference (refs : List OwnerReference) (ownerRef : OwnerReference)
    (controller : Bool) : List OwnerReference :=
  let oref := if controller then { ownerRef with controller := some true }
              else { ownerRef with controller := none }
  setRefs refs oref

/-- `RemoveOwnerReference(owned, owner)` acting on the owned object's
reference list: keep exactly the references whose UID differs from the
owner's. -/
def RemoveOwnerReference (refs : List OwnerReference) (ownerUid : String) :
    List OwnerReference :=
  refs.filter (fun ref => ref.uid ≠ ownerUid)

/-- Number of references with the controller flag set true; the §3 invariant
is `controllerCount refs ≤ 1`. -/
def controllerCount (refs : List OwnerReference) : Nat :=
  (refs.filter ctrlTrue).length

/-- Whether a `*requeueAfter` occurs in the unwrap chain (the condition under
which `errors.As(err, &ra)` succeeds). -/
def chainHasRequeueAfter : GoErr → Bool
  | .requeueAfter _ => true
  | .permanentError (some e) => chainHasRequeueAfter e
  | .permanentError none => false
  | .wrapf _ e => chainHasRequeueAfter e
  | .requeueImmediately => false
  | .ordinary _ => false

/-- Fixture: a remote object for the concrete witnesses. -/
def wStore : KObject Nat Nat :=
  { ns := "default", name := "cm", labels := [("app", "demo")],
    annotations := [("a", "1"), ("b", "2")], finalizers := ["f1"],
    spec := 0, status := 0 }

/-- Fixture: a reconciler that mutates the object and fails. -/
def wReconcileErr : KObject Nat Nat → KObject Nat Nat × Option GoErr :=
  fun o => ({ o with status := 7 }, some (.ordinary "boom"))

/-- Fixture: a reconciler that mutates the spec zone and succeeds. -/
def wReconcileSpec : KObject Nat Nat → KObject Nat Nat × Option GoErr :=
  fun o => ({ o with spec := 1 }, none)

/-- Fixture: a local object whose metadata and status differ from `wStore`. -/
def wCurr : KObject Nat Nat :=
  { ns := "default", name := "cm", labels := [("app", "demo")],
    annotations := [("b", "9"), ("c", "3")], finalizers := ["f2"],
    spec := 0, status := 5 }

/-!
Helper lemmas.
-/

/-- Looking up the key just assigned yields the assigned value. -/
theorem mlookup_mapSet_self (k v : String) :
    ∀ m : List (String × String), mlookup k (mapSet m k v) = some v
  | [] => by simp [mapSet, mlookup]
  | (k1, v1) :: rest => by
    by_cases h : k1 = k
    · simp [mapSet, h, mlookup]
    · simp [mapSet, h, mlookup, mlookup_mapSet_self k v rest]

/-- Assignment at a different key does not change a lookup. -/
theorem mlookup_mapSet_ne (q k v : String) (hne : q ≠ k) :
    ∀ m : List (String × String), mlookup q (mapSet m k v) = mlookup q m
  | [] => by
    have hkq : ¬ k = q := fun hh => hne hh.symm
    simp [mapSet, mlookup, hkq]
  | (k1, v1) :: rest => by
    by_cases h : k1 = k
    · have hkq : ¬ k = q := fun hh => hne hh.symm
      simp [mapSet, h, mlookup, hkq]
    · simp [mapSet, h, mlookup, mlookup_mapSet_ne q k v hne rest]

/-- A key absent from an association list looks up to `none`. -/
theorem mlookup_eq_none_of_not_mem (k : String) :
    ∀ m : List (String × String), k ∉ m.map Prod.fst → mlookup k m = none
  | [] => fun _ => rfl
  | (k1, v1) :: rest => fun h => by
    have h1 : k1 ≠ k := fun hh => h (by simp [hh])
    have h2 : k ∉ rest.map Prod.fst := fun hh => h (by simp [hh])
    simp [mlookup, h1, mlookup_eq_none_of_not_mem k rest h2]

/-- Keys absent from the merged-in map keep their value from the base map. -/
theorem mlookup_mergeInto_of_none (k : String) :
    ∀ (cur latest : List (String × String)), mlookup k cur = none →
      mlookup k (mergeInto latest cur) = mlookup k latest
  | [], latest => fun _ => rfl
  | (k1, v1) :: rest, latest => fun h => by
    have h1 : k1 ≠ k := by
      intro hh
      simp [mlookup, hh] at h
    have h2 : mlookup k rest = none := by
      simpa [mlookup, h1] using h
    have ih := mlookup_mergeInto_of_none k rest (mapSet latest k1 v1) h2
    calc mlookup k (mergeInto latest ((k1, v1) :: rest))
        = mlookup k (mergeInto (mapSet latest k1 v1) rest) := rfl
      _ = mlookup k (mapSet latest k1 v1) := ih
      _ = mlookup k latest := mlookup_mapSet_ne k k1 v1 (fun hh => h1 hh.symm) latest

/-- Keys of the merged-in map (with pairwise-distinct keys, as in any Go map)
end up with their merged-in value. -/
theorem mlookup_mergeInto_of_some (k v : String) :
    ∀ (cur latest : List (String × String)), (cur.map Prod.fst).Nodup →
      mlookup k cur = some v → mlookup k (mergeInto latest cur) = some v
  | [], latest => fun _ h => by simp [mlookup] at h
  | (k1, v1) :: rest, latest => fun hnd h => by
    obtain ⟨hnd1, hnd2⟩ :=
      List.nodup_cons.mp (by simpa only [List.map_cons] using hnd)
    by_cases hk : k1 = k
    · have hv : v1 = v := by simpa [mlookup, hk] using h
      have hrest : mlookup k rest = none := by
        apply mlookup_eq_none_of_not_mem
        rw [← hk]
        exact hnd1
      calc mlookup k (mergeInto latest ((k1, v1) :: rest))
          = mlookup k (mergeInto (mapSet latest k1 v1) rest) := rfl
        _ = mlookup k (mapSet latest k1 v1) :=
            mlookup_mergeInto_of_none k rest (mapSet latest k1 v1) hrest
        _ = some v := by rw [hk, hv]; exact mlookup_mapSet_self k v latest
    · have h2 : mlookup k rest = some v := by simpa [mlookup, hk] using h
      exact mlookup_mergeInto_of_some k v rest (mapSet latest k1 v1) hnd2 h2

/-- Replacing or appending a reference with an unset controller flag cannot
increase the number of controller references. -/
theorem controllerCount_setRefs_le (oref : OwnerReference)
    (h : ctrlTrue oref = false) :
    ∀ refs : List OwnerReference,
      controllerCount (setRefs refs oref) ≤ controllerCount refs
  | [] => by simp [setRefs, controllerCount, h]
  | r :: rest => by
    have ih := controllerCount_setRefs_le oref h rest
    simp only [controllerCount] at ih ⊢
    by_cases hr : r.uid = oref.uid
    · rw [setRefs, if_pos hr]
      cases hc : ctrlTrue r <;> simp [List.filter_cons, h, hc]
    · rw [setRefs, if_neg hr]
      cases hc : ctrlTrue r <;> simp [List.filter_cons, hc] <;> omega

/-- Filtering a reference list cannot increase the number of controller
references. -/
theorem controllerCount_filter_le (p : OwnerReference → Bool)
    (refs : List OwnerReference) :
    controllerCount (refs.filter p) ≤ controllerCount refs :=
  List.Sublist.length_le (List.Sublist.filter ctrlTrue (List.filter_sublist refs))

/-- The result fields of `updateIfNeeded`: the remote spec is never touched,
the conflict-free run reports no error, and the log holds the spec warning
exactly when the spec zones differ. -/
theorem updateIfNeeded_fields {σ τ : Type} [DecidableEq σ] [DecidableEq τ]
    (store o c : KObject σ τ) :
    (updateIfNeeded store o c).store.spec = store.spec ∧
    (updateIfNeeded store o c).err = none ∧
    (updateIfNeeded store o c).log
      = (if o.spec ≠ c.spec then [LogEvent.warnSpecChanged] else []) := by
  refine ⟨?_, ?_, ?_⟩
  · simp only [updateIfNeeded, updateMetadataWithRetry, updateStatusWithRetry,
      applyMetadata]
    split <;> split <;> rfl
  · rfl
  · rfl

/-- `errors.Is(&permanentError{}, &permanentError{})` never terminates:
`permanentError.Is` re-enters `errors.Is` with a fresh `&permanentError{}`
target whose `Is` method is called again. -/
theorem goIs_permTarget_diverges (fuel : Nat) :
    goIs fuel (.permanentError none) .tPermanentError = none := by
  induction fuel with
  | zero => rfl
  | succ n ih => simp [goIs, targetVal, ih]

/-- `errors.Is(p, &permanentError{})` diverges for every `*permanentError`
`p` in head position, whatever it wraps. -/
theorem goIs_perm_diverges (fuel : Nat) (x : Option GoErr) :
    goIs fuel (.permanentError x) .tPermanentError = none := by
  cases fuel with
  | zero => rfl
  | succ n => simp [goIs, targetVal, goIs_permTarget_diverges]

/-- `errors.As` finds no `*requeueAfter` in a chain without one. -/
theorem getRequeueDurationE_eq_zero :
    ∀ e : GoErr, chainHasRequeueAfter e = false → getRequeueDurationE e = 0
  | .requeueAfter _, h => by simp [chainHasRequeueAfter] at h
  | .requeueImmediately, _ => rfl
  | .permanentError none, _ => rfl
  | .permanentError (some e), h => by
    have hh : chainHasRequeueAfter e = false := by
      simpa [chainHasRequeueAfter] using h
    simpa [getRequeueDurationE] using getRequeueDurationE_eq_zero e hh
  | .ordinary _, _ => rfl
  | .wrapf _ e, h => by
    have hh : chainHasRequeueAfter e = false := by
      simpa [chainHasRequeueAfter] using h
    simpa [getRequeueDurationE] using getRequeueDurationE_eq_zero e hh

/-!
Claim theorems.
-/

/-- C3: when the reconciler closure returns a non-nil error, the loop
performs no persistence at all — the write trace is empty, the remote object
is untouched, and the reconciler's error is the result. -/
theorem claim_C3 {σ τ : Type} [DecidableEq σ] [DecidableEq τ]
    (store m : KObject σ τ)
    (reconcile : KObject σ τ → KObject σ τ × Option GoErr) (e : GoErr)
    (h : reconcile store = (m, some e)) :
    processItem store reconcile
      = { store := store, err := some e, log := [], writes := [] } := by
  simp [processItem, h]

/-- C3 witness: a reconciler that mutates the status and fails leaves the
remote object exactly as it was and issues no write. -/
theorem claim_C3_witness :
    wReconcileErr wStore = ({ wStore with status := 7 }, some (.ordinary "boom")) ∧
    processItem wStore wReconcileErr
      = { store := wStore, err := some (.ordinary "boom"), log := [],
          writes := [] } :=
  ⟨rfl, claim_C3 wStore { wStore with status := 7 } wReconcileErr
    (.ordinary "boom") rfl⟩

/-- C4: on a successful reconciliation that mutated the spec zone, the
persisted remote object's spec is unchanged, the reconciliation does not
fail, and the spec difference shows up (only) as the warning log event. -/
theorem claim_C4 {σ τ : Type} [DecidableEq σ] [DecidableEq τ]
    (store current : KObject σ τ)
    (reconcile : KObject σ τ → KObject σ τ × Option GoErr)
    (h : reconcile store = (current, none)) :
    (processItem store reconcile).store.spec = store.spec ∧
    (processItem store reconcile).err = none ∧
    (current.spec ≠ store.spec →
      (processItem store reconcile).log = [LogEvent.warnSpecChanged]) := by
  have hp : processItem store reconcile = updateIfNeeded store store current := by
    simp [processItem, h]
  rw [hp]
  obtain ⟨h1, h2, h3⟩ := updateIfNeeded_fields store store current
  refine ⟨h1, h2, fun hs => ?_⟩
  rw [h3, if_pos (fun hh => hs hh.symm)]

/-- C4 witness: a reconciler that sets the spec from 0 to 1 leaves the
remote spec at 0, succeeds, and triggers the spec warning. -/
theorem claim_C4_witness :
    wReconcileSpec wStore = ({ wStore with spec := 1 }, none) ∧
    (processItem wStore wReconcileSpec).store.spec = wStore.spec ∧
    (processItem wStore wReconcileSpec).err = none ∧
    (processItem wStore wReconcileSpec).log = [LogEvent.warnSpecChanged] :=
  ⟨rfl,
    (claim_C4 wStore { wStore with spec := 1 } wReconcileSpec rfl).1,
    (claim_C4 wStore { wStore with spec := 1 } wReconcileSpec rfl).2.1,
    (claim_C4 wStore { wStore with spec := 1 } wReconcileSpec rfl).2.2
      (by decide)⟩

/-- C5: the metadata persister merges annotations and labels additively onto
the freshly fetched remote copy — every key of the local (Go) map keeps its
local value, every remote-only key keeps its remote value — replaces the
finalizer list wholesale, and the status persister replaces the status zone
wholesale. -/
theorem claim_C5 {σ τ : Type} (latest curr store : KObject σ τ) (k v : String)
    (ha : (curr.annotations.map Prod.fst).Nodup)
    (hl : (curr.labels.map Prod.fst).Nodup) :
    (mlookup k curr.annotations = some v →
      mlookup k (applyMetadata latest curr).annotations = some v) ∧
    (mlookup k curr.annotations = none →
      mlookup k (applyMetadata latest curr).annotations
        = mlookup k latest.annotations) ∧
    (mlookup k curr.labels = some v →
      mlookup k (applyMetadata latest curr).labels = some v) ∧
    (mlookup k curr.labels = none →
      mlookup k (applyMetadata latest curr).labels = mlookup k latest.labels) ∧
    (applyMetadata latest curr).finalizers = curr.finalizers ∧
    (updateMetadataWithRetry latest curr).1 = applyMetadata latest curr ∧
    (updateStatusWithRetry store curr).1.status = curr.status := by
  refine ⟨?_, ?_, ?_, ?_, rfl, rfl, rfl⟩
  · exact fun h =>
      mlookup_mergeInto_of_some k v curr.annotations latest.annotations ha h
  · exact fun h =>
      mlookup_mergeInto_of_none k curr.annotations latest.annotations h
  · exact fun h => mlookup_mergeInto_of_some k v curr.labels latest.labels hl h
  · exact fun h => mlookup_mergeInto_of_none k curr.labels latest.labels h

/-- C5 witness: merging local annotations `{b ↦ 9, c ↦ 3}` onto remote
annotations `{a ↦ 1, b ↦ 2}` keeps the local value at `b` and the remote
value at the remote-only key `a`; finalizers and status are replaced
wholesale. -/
theorem claim_C5_witness :
    mlookup "b" (applyMetadata wStore wCurr).annotations = some "9" ∧
    mlookup "a" (applyMetadata wStore wCurr).annotations
      = mlookup "a" wStore.annotations ∧
    (applyMetadata wStore wCurr).finalizers = ["f2"] ∧
    (updateStatusWithRetry wStore wCurr).1.status = 5 :=
  ⟨((claim_C5 wStore wCurr wStore "b" "9" (by decide) (by decide)).1
      (by decide)),
   ((claim_C5 wStore wCurr wStore "a" "9" (by decide) (by decide)).2.1
      (by decide)),
   ((claim_C5 wStore wCurr wStore "a" "9" (by decide) (by decide)).2.2.2.2.1),
   ((claim_C5 wStore wCurr wStore "a" "9" (by decide) (by decide)).2.2.2.2.2.2)⟩

/-- C1: the claim says `IsRequeueError(RequeueAfter(d))` is true and
`IsPermanentError(PermanentError(e))` is true for non-nil `e`.  The code
disagrees with the claim and with its own tests (`TestRequeueAfter`,
`TestPermanentError`): `errors.Is(err, &requeueAfter{})` compares a freshly
allocated pointer for identity and `requeueAfter` has no `Is` method, so
`IsRequeueError(RequeueAfter(d))` is `false` for every `d` and every amount
of fuel suffices to see it; and `IsPermanentError(PermanentError(e))` never
terminates (`permanentError.Is` re-enters `errors.Is` on a fresh
`&permanentError{}` forever), returning `none` at every fuel. -/
theorem claim_C1 (fuel : Nat) (d : Int) (e : GoErr) :
    IsRequeueError (fuel + 1) (RequeueAfter d) = some false ∧
    IsPermanentError fuel (PermanentError (some e)) = none := by
  constructor
  · simp [IsRequeueError, goErrorsIs, RequeueAfter, goIs]
  · simp [IsPermanentError, goErrorsIs, PermanentError, goIs_perm_diverges]

/-- C2: the claim says a permanent error causes `Forget(key)` and `Done(key)`.
On the code, completing a key whose processing returned
`PermanentError(e)` never reaches any queue call: the very first
classification, `IsPermanentError(err)`, recurses without bound (stack
overflow), so neither `Forget` nor the deferred `Done` happens — the trace
is `none` at every fuel. -/
theorem claim_C2 (fuel numRequeues : Nat) (key : String) (e : GoErr) :
    processNextItem fuel numRequeues key (PermanentError (some e)) = none := by
  simp [processNextItem, handleProcessError, IsPermanentError, goErrorsIs,
    PermanentError, goIs_perm_diverges]

/-- C9: `PermanentError(nil)` returns nil. -/
theorem claim_C9 : PermanentError none = none := rfl

/-- C10: a reconciliation returning `RequeueAfter(0)` is routed by
`handleProcessError` exactly like an ordinary error — rate-limited while
`NumRequeues(key)` is below the ceiling of 10 and forgotten (dropped) at the
ceiling — and never as a zero-delay `AddAfter`, because the extracted
duration is honored only when strictly positive. -/
theorem claim_C10 (fuel numRequeues : Nat) (key msg : String) :
    handleProcessError (fuel + 1) numRequeues key (.requeueAfter 0) =
      handleProcessError (fuel + 1) numRequeues key (.ordinary msg) ∧
    handleProcessError (fuel + 1) numRequeues key (.requeueAfter 0) =
      some (if numRequeues < maxRetries then [QueueOp.addRateLimited key]
            else [QueueOp.forget key]) := by
  constructor
  · simp [handleProcessError, IsPermanentError, goErrorsIs, goIs, getRequeueDurationE]
  · simp only [handleProcessError, IsPermanentError, goErrorsIs, goIs, getRequeueDurationE]
    rw [if_neg (by decide : ¬ (0 : Int) < 0)]
    split <;> rfl

/-- C6 counterexample: the claim says `GetRequeueDuration(PermanentError(e))`
is 0 for every non-nil `e`; with `e = RequeueAfter(7)` the `errors.As` walk
unwraps the permanent error and finds the `*requeueAfter`, returning 7. -/
theorem claim_C6_counterexample :
    GetRequeueDuration (PermanentError (RequeueAfter 7)) = 7 ∧
    ¬ GetRequeueDuration (PermanentError (RequeueAfter 7)) = 0 := by
  constructor
  · rfl
  · decide

/-- C6 (amended): `GetRequeueDuration(RequeueAfter(d)) = d` for every `d`;
`GetRequeueDuration` returns 0 for `RequeueImmediately()`, for nil, for any
error whose unwrap chain holds no `requeueAfter` (in particular any ordinary
error), and for `PermanentError(e)` for any such `e` — the restriction to
chains without a `requeueAfter` is what the counterexample forces. -/
theorem claim_C6 (d : Int) (e : GoErr)
    (h : chainHasRequeueAfter e = false) :
    GetRequeueDuration (RequeueAfter d) = d ∧
    GetRequeueDuration RequeueImmediately = 0 ∧
    GetRequeueDuration none = 0 ∧
    GetRequeueDuration (some e) = 0 ∧
    GetRequeueDuration (PermanentError (some e)) = 0 := by
  refine ⟨rfl, rfl, rfl, ?_, ?_⟩
  · simpa [GetRequeueDuration] using getRequeueDurationE_eq_zero e h
  · simpa [GetRequeueDuration, PermanentError, getRequeueDurationE] using
      getRequeueDurationE_eq_zero e h

/-- C7: the function returned by `EnqueueRequestForOwner(ownerKind,
isControllerOnly)` yields exactly the keys (`namespace/name`) of the owner
references whose API version and kind match the owner kind, additionally
requiring the controller flag when `isControllerOnly`; in particular, for an
object with two matching references of which exactly the second has
`isController = true`, the `true` query yields the controller owner's key
and the `false` query yields both keys. -/
theorem claim_C7 {σ τ : Type} (ownerType : GroupVersionKind)
    (isController : Bool) (obj : KObject σ τ) (refs : List OwnerReference) :
    EnqueueRequestForOwner ownerType isController obj refs
      = (refs.filter (matchesOwner ownerType isController)).map
          (fun ref => obj.ns ++ "/" ++ ref.name) ∧
    EnqueueRequestForOwner ⟨"", "v1", "ConfigMap"⟩ true wStore
      [⟨"v1", "ConfigMap", "owner-cm1", "u1", none⟩,
       ⟨"v1", "ConfigMap", "owner-cm2", "u2", some true⟩]
      = ["default/owner-cm2"] ∧
    EnqueueRequestForOwner ⟨"", "v1", "ConfigMap"⟩ false wStore
      [⟨"v1", "ConfigMap", "owner-cm1", "u1", none⟩,
       ⟨"v1", "ConfigMap", "owner-cm2", "u2", some true⟩]
      = ["default/owner-cm1", "default/owner-cm2"] := by
  refine ⟨?_, by decide, by decide⟩
  induction refs with
  | nil => rfl
  | cons r rest ih =>
    simp only [EnqueueRequestForOwner, enqueueLoop] at ih ⊢
    by_cases h1 : r.apiVersion = gvString ownerType ∧ r.kind = ownerType.kind
    · by_cases h2 : isController ∧ ctrlTrue r = false
      · obtain ⟨h2a, h2b⟩ := h2
        subst h2a
        have hm : matchesOwner ownerType true r = false := by
          simp [matchesOwner, h1.1, h1.2, h2b]
        simp [h1, h2b, List.filter_cons, hm, ih]
      · have hm : matchesOwner ownerType isController r = true := by
          rcases Decidable.not_and_iff_or_not.mp h2 with hc | hc
          · simp [matchesOwner, h1.1, h1.2, Bool.eq_false_iff.mpr hc]
          · simp only [Bool.not_eq_false] at hc
            simp [matchesOwner, h1.1, h1.2, hc]
        simp [h1, h2, List.filter_cons, hm, ih]
    · have hm : matchesOwner ownerType isController r = false := by
        rcases Decidable.not_and_iff_or_not.mp h1 with hc | hc <;>
          simp [matchesOwner, hc]
      simp [h1, List.filter_cons, hm, ih]

/-- C8 counterexample: an object whose single owner reference has the
controller flag (so the invariant holds) gains a second controller reference
when `SetOwnerReference` is called with a different owner and
`controller = true` — the code neither clears the existing flag nor rejects
the call, so the at-most-one-controller invariant is violated. -/
theorem claim_C8_counterexample :
    controllerCount [⟨"v1", "ConfigMap", "a", "uidA", some true⟩] ≤ 1 ∧
    ¬ controllerCount
        (SetOwnerReference [⟨"v1", "ConfigMap", "a", "uidA", some true⟩]
          ⟨"v1", "ConfigMap", "b", "uidB", none⟩ true) ≤ 1 := by
  decide

/-- C8 (amended): `RemoveOwnerReference` always preserves the at-most-one
controller-reference invariant, and `SetOwnerReference` preserves it when
called with `controller = false`; with `controller = true` and an existing
controller reference under a different UID the invariant can be violated
(the counterexample), so the unrestricted claim is limited to these cases. -/
theorem claim_C8 (refs : List OwnerReference) (ownerRef : OwnerReference)
    (uid : String) (h : controllerCount refs ≤ 1) :
    controllerCount (SetOwnerReference refs ownerRef false) ≤ 1 ∧
    controllerCount (RemoveOwnerReference refs uid) ≤ 1 := by
  constructor
  · have hs := controllerCount_setRefs_le { ownerRef with controller := none }
      rfl refs
    simpa [SetOwnerReference] using hs.trans h
  · exact Nat.le_trans (controllerCount_filter_le _ refs) h

/-- C8 witness: the amended claim at the counterexample's starting object. -/
theorem claim_C8_witness :
    controllerCount [⟨"v1", "ConfigMap", "a", "uidA", some true⟩] ≤ 1 ∧
    (controllerCount
        (SetOwnerReference [⟨"v1", "ConfigMap", "a", "uidA", some true⟩]
          ⟨"v1", "ConfigMap", "b", "uidB", none⟩ false) ≤ 1 ∧
     controllerCount
        (RemoveOwnerReference [⟨"v1", "ConfigMap", "a", "uidA", some true⟩]
          "uidA") ≤ 1) :=
  ⟨by decide,
    claim_C8 [⟨"v1", "ConfigMap", "a", "uidA", some true⟩]
      ⟨"v1", "ConfigMap", "b", "uidB", none⟩ "uidA" (by decide)⟩

/-- C6 witness: the amended claim at `d = 5` and the ordinary error
`errors.New("x")`. -/
theorem claim_C6_witness :
    chainHasRequeueAfter (.ordinary "x") = false ∧
    GetRequeueDuration (RequeueAfter 5) = 5 ∧
    GetRequeueDuration (PermanentError (some (.ordinary "x"))) = 0 :=
  ⟨by decide, (claim_C6 5 (.ordinary "x") (by decide)).1,
    (claim_C6 5 (.ordinary "x") (by decide)).2.2.2.2⟩

end ClientGo2
